import Mathlib

set_option maxHeartbeats 1000000

/-! Verification of the gxi editor front-end core: the line cache and its
    update reducer, the viewport synchronizer, the style table and the
    view-state operations, shallowly embedded from `src/edit_view.rs` and
    `src/gxi/src/main_win.rs`.  Pixel quantities are modelled as rationals;
    Rust's `as u64` cast of a float is truncation toward zero saturating
    at 0, which on rationals is `Int.floor` followed by `Int.toNat`. -/

/-- A style span as stored on a line: style id, delta-encoded start, length
    (mirrors the `styles` entries consumed in `EditView::handle_draw`). -/
structure StyleSpan where
  id : Nat
  start : Int
  len : Nat
  deriving Repr, DecidableEq

/-- A populated line of the line cache: text, style spans, caret offsets
    (mirrors the `Line` records read by `EditView::handle_draw`). -/
structure CacheLine where
  text : String
  styles : List StyleSpan
  cursors : List Nat
  deriving Repr, DecidableEq

/-- Rust `f64 as u64` on a rational: truncate toward zero, saturate at 0
    for negative inputs.  For nonnegative arguments this is the floor. -/
def rustCastU64 (q : ℚ) : Nat :=
  (Int.floor q).toNat

/-- The mutable state of an `EditView` that the embedded operations touch:
    the line cache, the two scrollbar adjustments (value / lower / upper /
    page size), the drawing-area allocation, the font metrics, and the
    pristine flag with the file name and tab label. -/
structure EditViewState where
  lineCache : List (Option CacheLine)
  vValue : ℚ
  vLower : ℚ
  vUpper : ℚ
  vPageSize : ℚ
  hValue : ℚ
  hLower : ℚ
  hUpper : ℚ
  hPageSize : ℚ
  daWidth : ℚ
  daHeight : ℚ
  fontHeight : ℚ
  fontWidth : ℚ
  fontAscent : ℚ
  fontDescent : ℚ
  pristine : Bool
  fileName : Option String
  label : String
  deriving Repr, DecidableEq

/-- `LineCache::get_line` as used by the draw pass: `none` iff the slot is
    invalid or the index is out of range (spec §4.1 contract). -/
def getLine (cache : List (Option CacheLine)) (i : Nat) : Option CacheLine :=
  cache.getD i none

/-- `EditView::da_px_to_cell`: translate a pixel position into
    `(column, line)`.  Adds the scroll offsets, subtracts the font descent
    from `y`, clamps negative `y` to 0, then casts `x / font_width + 0.5`
    and `y / font_height` to `u64`. -/
def da_px_to_cell (st : EditViewState) (x y : ℚ) : Nat × Nat :=
  let x1 := x + st.hValue
  let y1 := y + st.vValue
  let y2 := y1 - st.fontDescent
  let y3 := if y2 < 0 then 0 else y2
  (rustCastU64 (x1 / st.fontWidth + 1/2), rustCastU64 (y3 / st.fontHeight))

/-- Scroll directions delivered by a GDK scroll event; `other` stands for
    any direction the `match` in `EditView::handle_scroll` ignores. -/
inductive ScrollDirection where
  | up
  | down
  | left
  | right
  | other
  deriving Repr, DecidableEq

/-- The adjustment mutation performed by `EditView::handle_scroll` before
    it recomputes the visible region: move the matching scrollbar value by
    `font_height * 3`. -/
def scrollAdjust (st : EditViewState) (dir : ScrollDirection) : EditViewState :=
  let amt := st.fontHeight * 3
  match dir with
  | .up => { st with vValue := st.vValue - amt }
  | .down => { st with vValue := st.vValue + amt }
  | .left => { st with hValue := st.hValue - amt }
  | .right => { st with hValue := st.hValue + amt }
  | .other => st

/-- `EditView::update_visible_scroll_region`: derive the visible line range
    from `da_px_to_cell` at the top and bottom of the drawing area (the
    last line is incremented by one) — this pair is sent to the backend
    `scroll` notification unconditionally. -/
def updateVisibleScrollRegion (st : EditViewState) : Nat × Nat :=
  let first := (da_px_to_cell st 0 0).2
  let last := (da_px_to_cell st 0 st.daHeight).2 + 1
  (first, last)

/-- `EditView::handle_scroll`: adjust the scrollbar value per the event
    direction, then notify the backend of the new visible region.  Returns
    the new state and the list of emitted `scroll` notifications. -/
def handle_scroll (st : EditViewState) (dir : ScrollDirection) :
    EditViewState × List (Nat × Nat) :=
  let st' := scrollAdjust st dir
  (st', [updateVisibleScrollRegion st'])

/-- `EditView::da_size_allocate`: store the new allocation as the scrollbar
    page sizes, then notify the backend of the new visible region. -/
def da_size_allocate (st : EditViewState) (w h : ℚ) :
    EditViewState × List (Nat × Nat) :=
  let st' := { st with daWidth := w, daHeight := h, vPageSize := h, hPageSize := w }
  (st', [updateVisibleScrollRegion st'])

/-- `EditView::vscrollbar_change_value`: the changed-value handler only
    recomputes and reports the visible region. -/
def vscrollbarChangeValue (st : EditViewState) : EditViewState × List (Nat × Nat) :=
  (st, [updateVisibleScrollRegion st])

/-- First visible line computed by `EditView::handle_draw`:
    `(vadj.get_value() / font_extents.height) as u64`. -/
def handleDrawFirst (st : EditViewState) : Nat :=
  rustCastU64 (st.vValue / st.fontHeight)

/-- Last visible line computed by `EditView::handle_draw`:
    `min(((value + da_height) / font_height) as u64 + 1, num_lines)`. -/
def handleDrawLast (st : EditViewState) : Nat :=
  min (rustCastU64 ((st.vValue + st.daHeight) / st.fontHeight) + 1) st.lineCache.length

/-- The missing-line scan of `EditView::handle_draw`: iterate
    `first_line..last_line` and record whether any `get_line` was `None`. -/
def handleDrawMissing (st : EditViewState) : Bool :=
  (List.range' (handleDrawFirst st) (handleDrawLast st - handleDrawFirst st)).any
    fun i => (getLine st.lineCache i).isNone

/-- The `request_lines` calls issued by one `EditView::handle_draw` pass:
    a single request for the full `[first_line, last_line)` range when the
    scan found a missing line, nothing otherwise. -/
def handleDrawRequests (st : EditViewState) : List (Nat × Nat) :=
  if handleDrawMissing st then [(handleDrawFirst st, handleDrawLast st)] else []

/-- One operation of a backend diff script (spec §3). -/
inductive UpdateOp where
  | copy (n : Nat)
  | skip (n : Nat)
  | invalidate (n : Nat)
  | insert (lines : List CacheLine)
  | update (n : Nat) (data : List (List StyleSpan × List Nat))
  deriving Repr

/-- Modelled from the spec: the `update(n, restyle_data)` step of §4.2 for a
    run of old slots (the repository's `linecache.rs`, which implements the
    reducer, is not among the provided sources).  A populated slot keeps its
    text and takes the next restyle entry in order; an invalid slot is
    re-emitted invalid. -/
def restyleSlots : List (Option CacheLine) → List (List StyleSpan × List Nat) →
    List (Option CacheLine)
  | [], _ => []
  | none :: rest, data => none :: restyleSlots rest data
  | some _ :: rest, [] => none :: restyleSlots rest []
  | some l :: rest, d :: ds =>
    some { l with styles := d.1, cursors := d.2 } :: restyleSlots rest ds

/-- Modelled from the spec: one step of the §4.2 update reducer over the
    accumulated output and old-cache cursor; `none` signals the protocol
    error of a count overrunning the old cache. -/
def applyOp (old : List (Option CacheLine))
    (acc : List (Option CacheLine) × Nat) (op : UpdateOp) :
    Option (List (Option CacheLine) × Nat) :=
  match op with
  | .copy n =>
    if acc.2 + n ≤ old.length then
      some (acc.1 ++ (old.drop acc.2).take n, acc.2 + n)
    else
      none
  | .skip n =>
    if acc.2 + n ≤ old.length then some (acc.1, acc.2 + n) else none
  | .invalidate n => some (acc.1 ++ List.replicate n none, acc.2)
  | .insert lines => some (acc.1 ++ lines.map some, acc.2)
  | .update n data =>
    if acc.2 + n ≤ old.length then
      some (acc.1 ++ restyleSlots ((old.drop acc.2).take n) data, acc.2 + n)
    else
      none

/-- Modelled from the spec: `LineCache::apply` of §4.1/§4.2 (the
    repository's `linecache.rs` is not among the provided sources).  Replay
    the script over the old cache; a replay that does not consume the old
    cache exactly is the §3 protocol error. -/
def applyScript (old : List (Option CacheLine)) (script : List UpdateOp) :
    Option (List (Option CacheLine)) :=
  match script.foldlM (applyOp old) ([], 0) with
  | some (out, oldIdx) => if oldIdx = old.length then some out else none
  | none => none

/-- `EditView::get_text_size`: the text extent used for the scrollbar
    bounds — height is the larger of the allocation height and
    `num_lines * font_height + font_descent`, width the larger of the
    allocation width and `100 * font_width`. -/
def getTextSize (st : EditViewState) : ℚ × ℚ :=
  let numLines := st.lineCache.length
  let allTextHeight := (numLines : ℚ) * st.fontHeight + st.fontDescent
  let height := if st.daHeight > allTextHeight then st.daHeight else allTextHeight
  let allTextWidth := (100 : ℚ) * st.fontWidth
  let width := if st.daWidth > allTextWidth then st.daWidth else allTextWidth
  (width, height)

/-- The title computed by `EditView::update_title`: the final
    `MAIN_SEPARATOR`-separated component of the file name, or `"Untitled"`
    when no file name is set. -/
def baseTitle (fileName : Option String) : String :=
  match fileName with
  | some f => (f.splitOn "/").getLastD "Untitled"
  | none => "Untitled"

/-- The label text set by `EditView::update_title`: the base title prefixed
    with `*` exactly when the buffer is not pristine. -/
def titleOf (fileName : Option String) (pristine : Bool) : String :=
  (if pristine then "" else "*") ++ baseTitle fileName

/-- The scrollbar portion of `EditView::update`: set each lower bound to 0
    and each upper bound to the corresponding text extent, and pull the
    value back when `value + page_size` overshoots the new upper bound. -/
def updateScrollbars (st : EditViewState) : EditViewState :=
  let sizes := getTextSize st
  let vUpper' := sizes.2
  let vValue' := if st.vValue + st.vPageSize > vUpper' then vUpper' - st.vPageSize
                 else st.vValue
  let hUpper' := sizes.1
  let hValue' := if st.hValue + st.hPageSize > hUpper' then hUpper' - st.hPageSize
                 else st.hValue
  { st with vLower := 0, vUpper := vUpper', vValue := vValue',
            hLower := 0, hUpper := hUpper', hValue := hValue' }

/-- The pristine portion of `EditView::update`: when the notification
    carries a `pristine` flag that differs from the stored one, store it
    and recompute the tab label; otherwise leave both untouched. -/
def updatePristineField (st : EditViewState) (pristineField : Option Bool) :
    EditViewState :=
  match pristineField with
  | some p =>
    if st.pristine ≠ p then { st with pristine := p, label := titleOf st.fileName p }
    else st
  | none => st

/-- `EditView::update`: apply the diff script to the line cache, reset the
    scrollbar bounds from the new text size and clamp the values, process
    the optional `pristine` field (recomputing the label on a change), and
    queue one redraw.  Returns the new state and the number of redraw
    requests queued. -/
def updateHandler (st : EditViewState) (script : List UpdateOp)
    (pristineField : Option Bool) : EditViewState × Nat :=
  let st1 := { st with lineCache := (applyScript st.lineCache script).getD st.lineCache }
  (updatePristineField (updateScrollbars st1) pristineField, 1)

/-- `cur_top` in `EditView::scroll_to`: the top pixel of the target line,
    `font_height * (line + 1) - font_ascent`. -/
def cellTop (st : EditViewState) (line : Nat) : ℚ :=
  st.fontHeight * ((line : ℚ) + 1) - st.fontAscent

/-- `cur_bottom` in `EditView::scroll_to`: `cur_top + font_ascent +
    font_descent`. -/
def cellBottom (st : EditViewState) (line : Nat) : ℚ :=
  cellTop st line + st.fontAscent + st.fontDescent

/-- `cur_left` in `EditView::scroll_to`: `font_width * col - font_ascent`. -/
def cellLeft (st : EditViewState) (col : Nat) : ℚ :=
  st.fontWidth * (col : ℚ) - st.fontAscent

/-- `cur_right` in `EditView::scroll_to`: `cur_left + font_width * 2`. -/
def cellRight (st : EditViewState) (col : Nat) : ℚ :=
  cellLeft st col + st.fontWidth * 2

/-- `EditView::scroll_to`: bring the target cell's vertical extent
    `[cur_top, cur_bottom]` and horizontal extent `[cur_left, cur_right]`
    into the scrollbar viewports, scrolling only when the cell sticks out
    past an edge and the page size is nonzero. -/
def scroll_to (st : EditViewState) (line col : Nat) : EditViewState :=
  let vValue' :=
    if cellTop st line < st.vValue then cellTop st line
    else if cellBottom st line > st.vValue + st.vPageSize ∧ st.vPageSize ≠ 0 then
      cellBottom st line - st.vPageSize
    else st.vValue
  let hValue' :=
    if cellLeft st col < st.hValue then cellLeft st col
    else if cellRight st col > st.hValue + st.hPageSize ∧ st.hPageSize ≠ 0 then
      cellRight st col - st.hPageSize
    else st.hValue
  { st with vValue := vValue', hValue := hValue' }

/-- Modelled from the spec: a style-table entry
    `(id, fg_color?, bg_color?, weight?, italic?, underline?)` of §3 (the
    `LineStyle` type lives in the `editview` crate, which is not among the
    provided sources). -/
structure LineStyle where
  fg_color : Option Nat
  bg_color : Option Nat
  weight : Option Nat
  italic : Option Bool
  underline : Option Bool
  deriving Repr, DecidableEq

/-- The style-table mutations of `MainWin`: `def_style` inserts/overwrites
    at the decoded id; `theme_changed` builds the selection style from the
    theme's selection colors and inserts it at id 0. -/
inductive StyleMsg where
  | defStyle (id : Nat) (style : LineStyle)
  | themeChanged (selectionFg : Option Nat) (selectionBg : Option Nat)
  deriving Repr

/-- Modelled from the spec: the style table is a mapping from small integer
    ids to styles with insert/overwrite and no deletion (§3; the `styles`
    container's type lives in the `editview` crate, not among the provided
    sources).  An association list with shadowing models it. -/
def applyStyleMsg (t : List (Nat × LineStyle)) : StyleMsg → List (Nat × LineStyle)
  | .defStyle i s => (i, s) :: t
  | .themeChanged fg bg => (0, ⟨fg, bg, none, none, none⟩) :: t

/-- `MainWin::new` initializes the style table with `Default::default()`:
    an empty mapping. -/
def initialStyles : List (Nat × LineStyle) := []

/-- Replay a sequence of style-table mutations from a starting table. -/
def applyStyleMsgs (t : List (Nat × LineStyle)) (ms : List StyleMsg) :
    List (Nat × LineStyle) :=
  ms.foldl applyStyleMsg t

/-- The spec's viewport first-line formula (§4.3):
    `floor(scroll_y / line_height)`. -/
def specFirstLine (scrollY lineHeight : ℚ) : ℤ :=
  ⌊scrollY / lineHeight⌋

/-- The amended last-line formula:
    `min(height, floor((scroll_y + viewport_height) / line_height) + 1)`. -/
def specLastLine (scrollY viewportHeight lineHeight : ℚ) (height : Nat) : ℤ :=
  min (height : ℤ) (⌊(scrollY + viewportHeight) / lineHeight⌋ + 1)

/-- The claimed last-line formula, verbatim from spec §4.3:
    `min(height - 1, floor((scroll_y + viewport_height) / line_height) + 1)`. -/
def specLastLineClaimed (scrollY viewportHeight lineHeight : ℚ) (height : Nat) : ℤ :=
  min ((height : ℤ) - 1) (⌊(scrollY + viewportHeight) / lineHeight⌋ + 1)

/-- A populated line with empty text and no styles or carets. -/
def blankLine : CacheLine :=
  { text := "", styles := [], cursors := [] }

/-- A neutral view state used as the base of the concrete test states:
    empty cache, zero offsets and metrics of one pixel. -/
def baseState : EditViewState :=
  { lineCache := []
    vValue := 0, vLower := 0, vUpper := 0, vPageSize := 0
    hValue := 0, hLower := 0, hUpper := 0, hPageSize := 0
    daWidth := 0, daHeight := 0
    fontHeight := 1, fontWidth := 1, fontAscent := 0, fontDescent := 0
    pristine := true, fileName := none, label := "Untitled" }

/-- Draw-pass scenario state: five populated lines, scroll 0, a 40-px
    drawing area and a 10-px line height. -/
def drawScenarioState : EditViewState :=
  { baseState with
    lineCache := List.replicate 5 (some blankLine)
    daHeight := 40
    fontHeight := 10 }

/-- Missing-line scenario state: three slots with the middle one invalid,
    a 3-px drawing area and 1-px line height, so all three are visible. -/
def missingLineState : EditViewState :=
  { baseState with
    lineCache := [some blankLine, none, some blankLine]
    daHeight := 3 }

/-- One-line cache state used against the claimed pixel-to-cell clamping. -/
def oneLineState : EditViewState :=
  { baseState with lineCache := [some blankLine] }

/-- Scroll-to scenario state: 10-px line height, ascent 8, descent 2,
    5-px glyph advance, and 100-px pages on both axes. -/
def scrollToState : EditViewState :=
  { baseState with
    fontHeight := 10, fontWidth := 5, fontAscent := 8, fontDescent := 2
    vPageSize := 100, hPageSize := 100 }

/-- Pristine scenario state: a saved file `dir/file.rs`. -/
def pristineState : EditViewState :=
  { baseState with fileName := some "dir/file.rs", label := "file.rs" }

theorem rustCastU64_cast_eq_floor {q : ℚ} (h : 0 ≤ q) :
    (rustCastU64 q : ℤ) = ⌊q⌋ := by
  unfold rustCastU64
  exact Int.toNat_of_nonneg (Int.floor_nonneg.mpr h)

/-- C1 (amended): for a nonnegative scroll offset, a nonnegative viewport
    height and a positive line height, the draw pass computes
    `first_line = floor(scroll_y / line_height)` and
    `last_line = min(height, floor((scroll_y + viewport_height) /
    line_height) + 1)` — the upper clamp is `height`, not `height - 1`. -/
theorem c1_draw_range_amended (st : EditViewState)
    (h1 : 0 ≤ st.vValue) (h2 : 0 ≤ st.daHeight) (h3 : 0 < st.fontHeight) :
    (handleDrawFirst st : ℤ) = specFirstLine st.vValue st.fontHeight ∧
    (handleDrawLast st : ℤ) =
      specLastLine st.vValue st.daHeight st.fontHeight st.lineCache.length := by
  constructor
  · unfold handleDrawFirst specFirstLine
    exact rustCastU64_cast_eq_floor (div_nonneg h1 h3.le)
  · unfold handleDrawLast specLastLine
    have hq : (0:ℚ) ≤ (st.vValue + st.daHeight) / st.fontHeight :=
      div_nonneg (by linarith) h3.le
    push_cast
    rw [rustCastU64_cast_eq_floor hq, min_comm]

/-- Witness for C1 at the scenario state: scroll 0, 40-px viewport, 10-px
    line height, five cached lines. -/
theorem c1_draw_range_amended_witness :
    (0:ℚ) ≤ drawScenarioState.vValue ∧ (0:ℚ) ≤ drawScenarioState.daHeight ∧
    (0:ℚ) < drawScenarioState.fontHeight ∧
    ((handleDrawFirst drawScenarioState : ℤ) =
       specFirstLine drawScenarioState.vValue drawScenarioState.fontHeight ∧
     (handleDrawLast drawScenarioState : ℤ) =
       specLastLine drawScenarioState.vValue drawScenarioState.daHeight
         drawScenarioState.fontHeight drawScenarioState.lineCache.length) :=
  ⟨by norm_num [drawScenarioState, baseState], by norm_num [drawScenarioState, baseState],
   by norm_num [drawScenarioState, baseState],
   c1_draw_range_amended drawScenarioState (by norm_num [drawScenarioState, baseState])
     (by norm_num [drawScenarioState, baseState]) (by norm_num [drawScenarioState, baseState])⟩

/-- C1 counterexample: at scroll 0, 40-px viewport, 10-px line height and a
    5-line cache the code computes `last_line = 5`, while the claimed
    `min(height - 1, floor((scroll_y + viewport_height) / line_height) + 1)`
    evaluates to 4. -/
theorem c1_draw_range_counterexample :
    (handleDrawLast drawScenarioState : ℤ) = 5 ∧
    specLastLineClaimed drawScenarioState.vValue drawScenarioState.daHeight
      drawScenarioState.fontHeight drawScenarioState.lineCache.length = 4 ∧
    (handleDrawLast drawScenarioState : ℤ) ≠
      specLastLineClaimed drawScenarioState.vValue drawScenarioState.daHeight
        drawScenarioState.fontHeight drawScenarioState.lineCache.length := by
  refine ⟨?_, ?_, ?_⟩ <;>
    norm_num [drawScenarioState, baseState, handleDrawLast, specLastLineClaimed,
      rustCastU64] <;>
    omega

/-- C4: a scroll event, a size allocation and a scrollbar value change each
    emit exactly one backend `scroll` notification, carrying the visible
    region recomputed from the post-event state, with no condition on the
    cache contents or on whether the range changed. -/
theorem c4_visible_range_notified (st : EditViewState) (dir : ScrollDirection)
    (w h : ℚ) :
    (handle_scroll st dir).2 = [updateVisibleScrollRegion (handle_scroll st dir).1] ∧
    (da_size_allocate st w h).2 =
      [updateVisibleScrollRegion (da_size_allocate st w h).1] ∧
    (vscrollbarChangeValue st).2 =
      [updateVisibleScrollRegion (vscrollbarChangeValue st).1] :=
  ⟨rfl, rfl, rfl⟩

/-- C5: replaying the single-operation script `[copy(height(C))]` over a
    cache `C` consumes it exactly and returns a cache equal to `C`. -/
theorem c5_copy_height_identity (C : List (Option CacheLine)) :
    applyScript C [UpdateOp.copy C.length] = some C := by
  simp [applyScript, applyOp, List.foldlM]

theorem handleDrawMissing_iff (st : EditViewState) :
    handleDrawMissing st = true ↔
      ∃ i, handleDrawFirst st ≤ i ∧ i < handleDrawLast st ∧
        getLine st.lineCache i = none := by
  unfold handleDrawMissing
  rw [List.any_eq_true]
  constructor
  · rintro ⟨i, hmem, hp⟩
    rw [List.mem_range'_1] at hmem
    exact ⟨i, hmem.1, by omega, Option.isNone_iff_eq_none.mp hp⟩
  · rintro ⟨i, h1, h2, h3⟩
    exact ⟨i, List.mem_range'_1.mpr ⟨h1, by omega⟩, by simp [h3]⟩

/-- C2: one draw pass issues exactly one `request_lines` fetch, covering the
    whole `[first_line, last_line)` range, precisely when some index in that
    range has no cached line; when every index is populated it issues
    nothing. -/
theorem c2_missing_line_requests (st : EditViewState) :
    ((∃ i, handleDrawFirst st ≤ i ∧ i < handleDrawLast st ∧
        getLine st.lineCache i = none) →
      handleDrawRequests st = [(handleDrawFirst st, handleDrawLast st)]) ∧
    ((∀ i, handleDrawFirst st ≤ i → i < handleDrawLast st →
        getLine st.lineCache i ≠ none) →
      handleDrawRequests st = []) := by
  constructor
  · intro h
    unfold handleDrawRequests
    rw [if_pos ((handleDrawMissing_iff st).mpr h)]
  · intro h
    unfold handleDrawRequests
    rw [if_neg]
    intro hm
    obtain ⟨i, h1, h2, h3⟩ := (handleDrawMissing_iff st).mp hm
    exact h i h1 h2 h3

/-- Witness for C2: a three-slot cache with the middle slot invalid makes
    the draw pass request the full visible range. -/
theorem c2_missing_line_requests_witness :
    handleDrawRequests missingLineState =
      [(handleDrawFirst missingLineState, handleDrawLast missingLineState)] :=
  (c2_missing_line_requests missingLineState).1
    ⟨1, by norm_num [handleDrawFirst, missingLineState, baseState, rustCastU64],
        by norm_num [handleDrawLast, missingLineState, baseState, rustCastU64],
        by simp [getLine, missingLineState, baseState]⟩

/-- C3 counterexample: with unit font metrics and a one-line cache, the
    pixel position `(0, 10)` maps to line 10, which is not within
    `[0, height) = [0, 1)` — the mapping performs no clamp to the cache
    height. -/
theorem c3_px_to_cell_counterexample :
    (da_px_to_cell oneLineState 0 10).2 = 10 ∧
    oneLineState.lineCache.length = 1 ∧
    ¬ ((da_px_to_cell oneLineState 0 10).2 < oneLineState.lineCache.length) := by
  refine ⟨?_, ?_, ?_⟩ <;>
    norm_num [da_px_to_cell, oneLineState, baseState, rustCastU64] <;>
    omega

/-- C3 (amended): for a positive font height, `da_px_to_cell` is the pure
    mapping `column = max(0, round((x + horizontal_scroll) / font_width))`,
    `line = max(0, floor((y + vertical_scroll - font_descent) /
    font_height))`; no clamp to the cache height is applied. -/
theorem c3_px_to_cell_amended (st : EditViewState) (x y : ℚ)
    (hf : 0 < st.fontHeight) :
    (da_px_to_cell st x y).1 = (round ((x + st.hValue) / st.fontWidth)).toNat ∧
    ((da_px_to_cell st x y).2 : ℤ) =
      max 0 ⌊(y + st.vValue - st.fontDescent) / st.fontHeight⌋ := by
  unfold da_px_to_cell rustCastU64
  constructor
  · dsimp only
    rw [round_eq]
  · dsimp only
    by_cases hneg : y + st.vValue - st.fontDescent < 0
    · rw [if_pos hneg]
      have h1 : ⌊(y + st.vValue - st.fontDescent) / st.fontHeight⌋ ≤ 0 :=
        Int.floor_nonpos (le_of_lt (div_neg_of_neg_of_pos hneg hf))
      rw [zero_div, Int.floor_zero, max_eq_left h1]
      simp
    · rw [if_neg hneg]
      have hq : 0 ≤ (y + st.vValue - st.fontDescent) / st.fontHeight :=
        div_nonneg (not_lt.mp hneg) hf.le
      have h2 : 0 ≤ ⌊(y + st.vValue - st.fontDescent) / st.fontHeight⌋ :=
        Int.floor_nonneg.mpr hq
      rw [Int.toNat_of_nonneg h2, max_eq_right h2]

/-- Witness for C3 at the one-line state with pixel position `(0, 10)`. -/
theorem c3_px_to_cell_amended_witness :
    (0:ℚ) < oneLineState.fontHeight ∧
    ((da_px_to_cell oneLineState 0 10).1 =
       (round (((0:ℚ) + oneLineState.hValue) / oneLineState.fontWidth)).toNat ∧
     ((da_px_to_cell oneLineState 0 10).2 : ℤ) =
       max 0 ⌊((10:ℚ) + oneLineState.vValue - oneLineState.fontDescent) /
         oneLineState.fontHeight⌋) :=
  ⟨by norm_num [oneLineState, baseState],
   c3_px_to_cell_amended oneLineState 0 10 (by norm_num [oneLineState, baseState])⟩

theorem updatePristineField_lineCache (st : EditViewState) (q : Option Bool) :
    (updatePristineField st q).lineCache = st.lineCache := by
  rcases q with _ | p
  · rfl
  · by_cases h : st.pristine ≠ p <;> simp [updatePristineField, h]

theorem updatePristineField_vValue (st : EditViewState) (q : Option Bool) :
    (updatePristineField st q).vValue = st.vValue := by
  rcases q with _ | p
  · rfl
  · by_cases h : st.pristine ≠ p <;> simp [updatePristineField, h]

theorem updatePristineField_vLower (st : EditViewState) (q : Option Bool) :
    (updatePristineField st q).vLower = st.vLower := by
  rcases q with _ | p
  · rfl
  · by_cases h : st.pristine ≠ p <;> simp [updatePristineField, h]

theorem updatePristineField_vUpper (st : EditViewState) (q : Option Bool) :
    (updatePristineField st q).vUpper = st.vUpper := by
  rcases q with _ | p
  · rfl
  · by_cases h : st.pristine ≠ p <;> simp [updatePristineField, h]

theorem updatePristineField_vPageSize (st : EditViewState) (q : Option Bool) :
    (updatePristineField st q).vPageSize = st.vPageSize := by
  rcases q with _ | p
  · rfl
  · by_cases h : st.pristine ≠ p <;> simp [updatePristineField, h]

theorem updatePristineField_hValue (st : EditViewState) (q : Option Bool) :
    (updatePristineField st q).hValue = st.hValue := by
  rcases q with _ | p
  · rfl
  · by_cases h : st.pristine ≠ p <;> simp [updatePristineField, h]

theorem updatePristineField_hLower (st : EditViewState) (q : Option Bool) :
    (updatePristineField st q).hLower = st.hLower := by
  rcases q with _ | p
  · rfl
  · by_cases h : st.pristine ≠ p <;> simp [updatePristineField, h]

theorem updatePristineField_hUpper (st : EditViewState) (q : Option Bool) :
    (updatePristineField st q).hUpper = st.hUpper := by
  rcases q with _ | p
  · rfl
  · by_cases h : st.pristine ≠ p <;> simp [updatePristineField, h]

theorem updatePristineField_hPageSize (st : EditViewState) (q : Option Bool) :
    (updatePristineField st q).hPageSize = st.hPageSize := by
  rcases q with _ | p
  · rfl
  · by_cases h : st.pristine ≠ p <;> simp [updatePristineField, h]

theorem updateScrollbars_lineCache (st : EditViewState) :
    (updateScrollbars st).lineCache = st.lineCache := rfl

theorem updateScrollbars_vLower (st : EditViewState) :
    (updateScrollbars st).vLower = 0 := rfl

theorem updateScrollbars_hLower (st : EditViewState) :
    (updateScrollbars st).hLower = 0 := rfl

theorem updateScrollbars_vUpper (st : EditViewState) :
    (updateScrollbars st).vUpper = (getTextSize st).2 := rfl

theorem updateScrollbars_hUpper (st : EditViewState) :
    (updateScrollbars st).hUpper = (getTextSize st).1 := rfl

theorem updateScrollbars_vPageSize (st : EditViewState) :
    (updateScrollbars st).vPageSize = st.vPageSize := rfl

theorem updateScrollbars_hPageSize (st : EditViewState) :
    (updateScrollbars st).hPageSize = st.hPageSize := rfl

theorem updateScrollbars_pristine (st : EditViewState) :
    (updateScrollbars st).pristine = st.pristine := rfl

theorem updateScrollbars_label (st : EditViewState) :
    (updateScrollbars st).label = st.label := rfl

theorem updateScrollbars_fileName (st : EditViewState) :
    (updateScrollbars st).fileName = st.fileName := rfl

theorem updateScrollbars_vClamp (st : EditViewState) :
    (updateScrollbars st).vValue + (updateScrollbars st).vPageSize ≤
      (updateScrollbars st).vUpper := by
  show (if st.vValue + st.vPageSize > (getTextSize st).2
          then (getTextSize st).2 - st.vPageSize else st.vValue) + st.vPageSize ≤
       (getTextSize st).2
  split_ifs with h <;> linarith

theorem updateScrollbars_hClamp (st : EditViewState) :
    (updateScrollbars st).hValue + (updateScrollbars st).hPageSize ≤
      (updateScrollbars st).hUpper := by
  show (if st.hValue + st.hPageSize > (getTextSize st).1
          then (getTextSize st).1 - st.hPageSize else st.hValue) + st.hPageSize ≤
       (getTextSize st).1
  split_ifs with h <;> linarith

/-- C6: the update handler applies the diff script to the view's line cache,
    resets each scrollbar's lower bound to 0 and upper bound to the text
    extent recomputed from the new cache, leaves each scrollbar value with
    `value + page_size ≤ upper`, and queues exactly one redraw request. -/
theorem c6_update_effects (st : EditViewState) (script : List UpdateOp)
    (q : Option Bool) :
    ((updateHandler st script q).1).lineCache =
      (applyScript st.lineCache script).getD st.lineCache ∧
    ((updateHandler st script q).1).vLower = 0 ∧
    ((updateHandler st script q).1).vUpper =
      (getTextSize { st with
        lineCache := (applyScript st.lineCache script).getD st.lineCache }).2 ∧
    ((updateHandler st script q).1).vValue + ((updateHandler st script q).1).vPageSize ≤
      ((updateHandler st script q).1).vUpper ∧
    ((updateHandler st script q).1).hLower = 0 ∧
    ((updateHandler st script q).1).hUpper =
      (getTextSize { st with
        lineCache := (applyScript st.lineCache script).getD st.lineCache }).1 ∧
    ((updateHandler st script q).1).hValue + ((updateHandler st script q).1).hPageSize ≤
      ((updateHandler st script q).1).hUpper ∧
    (updateHandler st script q).2 = 1 := by
  unfold updateHandler
  dsimp only
  refine ⟨?_, ?_, ?_, ?_, ?_, ?_, ?_, rfl⟩
  · rw [updatePristineField_lineCache, updateScrollbars_lineCache]
  · rw [updatePristineField_vLower, updateScrollbars_vLower]
  · rw [updatePristineField_vUpper, updateScrollbars_vUpper]
  · rw [updatePristineField_vValue, updatePristineField_vPageSize,
      updatePristineField_vUpper]
    exact updateScrollbars_vClamp _
  · rw [updatePristineField_hLower, updateScrollbars_hLower]
  · rw [updatePristineField_hUpper, updateScrollbars_hUpper]
  · rw [updatePristineField_hValue, updatePristineField_hPageSize,
      updatePristineField_hUpper]
    exact updateScrollbars_hClamp _

theorem lookup_zero_applyStyleMsg (t : List (Nat × LineStyle)) (m : StyleMsg)
    (h : List.lookup 0 t ≠ none) :
    List.lookup 0 (applyStyleMsg t m) ≠ none := by
  cases m with
  | defStyle i s =>
    by_cases h0 : (0 : Nat) = i
    · simp [applyStyleMsg, List.lookup, h0]
    · have hbeq : ((0 : Nat) == i) = false := beq_false_of_ne h0
      simp only [applyStyleMsg, List.lookup, hbeq]
      exact h
  | themeChanged fg bg =>
    simp [applyStyleMsg, List.lookup]

theorem lookup_zero_applyStyleMsgs (t : List (Nat × LineStyle)) (ms : List StyleMsg)
    (h : List.lookup 0 t ≠ none) :
    List.lookup 0 (applyStyleMsgs t ms) ≠ none := by
  induction ms generalizing t with
  | nil => exact h
  | cons m rest ih => exact ih (applyStyleMsg t m) (lookup_zero_applyStyleMsg t m h)

theorem lookup_zero_of_theme (ms : List StyleMsg) :
    ∀ t, (∃ fg bg, StyleMsg.themeChanged fg bg ∈ ms) →
      List.lookup 0 (applyStyleMsgs t ms) ≠ none := by
  induction ms with
  | nil =>
    intro t h
    rcases h with ⟨fg, bg, hm⟩
    simp at hm
  | cons m rest ih =>
    intro t h
    rcases h with ⟨fg, bg, hm⟩
    rcases List.mem_cons.mp hm with heq | hmem
    · rw [← heq]
      exact lookup_zero_applyStyleMsgs
        (applyStyleMsg t (StyleMsg.themeChanged fg bg)) rest
        (by simp [applyStyleMsg, List.lookup])
    · exact ih (applyStyleMsg t m) ⟨fg, bg, hmem⟩

/-- C7 counterexample: in the initial state — the style table `MainWin::new`
    builds with `Default::default()`, before any backend notification —
    looking up style id 0 fails. -/
theorem c7_style_zero_initial_counterexample :
    List.lookup 0 (applyStyleMsgs initialStyles []) = (none : Option LineStyle) :=
  rfl

/-- C7 (amended): style id 0 is present in every state reached from the
    initial (empty) style table by a message sequence containing at least
    one successfully decoded `theme_changed` notification; it is absent in
    the initial state itself. -/
theorem c7_style_zero_present (ms : List StyleMsg)
    (h : ∃ fg bg, StyleMsg.themeChanged fg bg ∈ ms) :
    List.lookup 0 (applyStyleMsgs initialStyles ms) ≠ none :=
  lookup_zero_of_theme ms initialStyles h

/-- Witness for C7: after a single `theme_changed` message the selection
    style is present. -/
theorem c7_style_zero_present_witness :
    List.lookup 0 (applyStyleMsgs initialStyles [StyleMsg.themeChanged none none]) ≠
      none :=
  c7_style_zero_present [StyleMsg.themeChanged none none] ⟨none, none, by simp⟩

/-- C8: when each page is at least one cell tall/wide and nonzero,
    `scroll_to` leaves the target cell inside both viewports; when the cell
    was already fully inside, both offsets are left unchanged; and the fit
    is the edge fit exactly — when the target was above the viewport the
    new offset equals `cur_top` (scrolled up just enough), when it was
    below the new offset equals `cur_bottom - page_size` (scrolled down
    just enough), with the same characterization on the horizontal axis. -/
theorem c8_scroll_to_spec (st : EditViewState) (line col : Nat)
    (hvp : st.fontAscent + st.fontDescent ≤ st.vPageSize)
    (hv0 : st.vPageSize ≠ 0)
    (hhp : st.fontWidth * 2 ≤ st.hPageSize)
    (hh0 : st.hPageSize ≠ 0) :
    ((scroll_to st line col).vValue ≤ cellTop st line ∧
     cellBottom st line ≤ (scroll_to st line col).vValue + st.vPageSize) ∧
    ((scroll_to st line col).hValue ≤ cellLeft st col ∧
     cellRight st col ≤ (scroll_to st line col).hValue + st.hPageSize) ∧
    ((st.vValue ≤ cellTop st line ∧ cellBottom st line ≤ st.vValue + st.vPageSize) →
      (scroll_to st line col).vValue = st.vValue) ∧
    ((st.hValue ≤ cellLeft st col ∧ cellRight st col ≤ st.hValue + st.hPageSize) →
      (scroll_to st line col).hValue = st.hValue) ∧
    (cellTop st line < st.vValue →
      (scroll_to st line col).vValue = cellTop st line) ∧
    ((st.vValue ≤ cellTop st line ∧ st.vValue + st.vPageSize < cellBottom st line) →
      (scroll_to st line col).vValue = cellBottom st line - st.vPageSize) ∧
    (cellLeft st col < st.hValue →
      (scroll_to st line col).hValue = cellLeft st col) ∧
    ((st.hValue ≤ cellLeft st col ∧ st.hValue + st.hPageSize < cellRight st col) →
      (scroll_to st line col).hValue = cellRight st col - st.hPageSize) := by
  have hb : cellBottom st line = cellTop st line + st.fontAscent + st.fontDescent := rfl
  have hr : cellRight st col = cellLeft st col + st.fontWidth * 2 := rfl
  unfold scroll_to
  dsimp only
  refine ⟨⟨?_, ?_⟩, ⟨?_, ?_⟩, ?_, ?_, ?_, ?_, ?_, ?_⟩
  · split_ifs with h1 h2
    · linarith
    · linarith [h2.1, hb, hvp]
    · linarith [not_lt.mp h1]
  · split_ifs with h1 h2
    · linarith [hb, hvp]
    · linarith
    · rcases not_and_or.mp h2 with hA | hB
      · linarith [not_lt.mp hA]
      · exact absurd hv0 hB
  · split_ifs with h1 h2
    · linarith
    · linarith [h2.1, hr, hhp]
    · linarith [not_lt.mp h1]
  · split_ifs with h1 h2
    · linarith [hr, hhp]
    · linarith
    · rcases not_and_or.mp h2 with hA | hB
      · linarith [not_lt.mp hA]
      · exact absurd hh0 hB
  · intro hin
    split_ifs with h1 h2
    · exact absurd h1 (not_lt.mpr hin.1)
    · exact absurd h2.1 (not_lt.mpr hin.2)
    · rfl
  · intro hin
    split_ifs with h1 h2
    · exact absurd h1 (not_lt.mpr hin.1)
    · exact absurd h2.1 (not_lt.mpr hin.2)
    · rfl
  · intro hup
    rw [if_pos hup]
  · rintro ⟨hin, hout⟩
    split_ifs with h1 h2
    · exact absurd h1 (not_lt.mpr hin)
    · rfl
    · rcases not_and_or.mp h2 with hA | hB
      · linarith [not_lt.mp hA]
      · exact absurd hv0 hB
  · intro hup
    rw [if_pos hup]
  · rintro ⟨hin, hout⟩
    split_ifs with h1 h2
    · exact absurd h1 (not_lt.mpr hin)
    · rfl
    · rcases not_and_or.mp h2 with hA | hB
      · linarith [not_lt.mp hA]
      · exact absurd hh0 hB

/-- Witness for C8: scroll to line 50, column 30 from the origin with
    100-px pages; the hypotheses hold, the cell ends up inside, and the
    edge-fit characterization applies. -/
theorem c8_scroll_to_spec_witness :
    scrollToState.fontAscent + scrollToState.fontDescent ≤ scrollToState.vPageSize ∧
    scrollToState.vPageSize ≠ 0 ∧
    scrollToState.fontWidth * 2 ≤ scrollToState.hPageSize ∧
    scrollToState.hPageSize ≠ 0 ∧
    (((scroll_to scrollToState 50 30).vValue ≤ cellTop scrollToState 50 ∧
      cellBottom scrollToState 50 ≤
        (scroll_to scrollToState 50 30).vValue + scrollToState.vPageSize) ∧
     ((scroll_to scrollToState 50 30).hValue ≤ cellLeft scrollToState 30 ∧
      cellRight scrollToState 30 ≤
        (scroll_to scrollToState 50 30).hValue + scrollToState.hPageSize) ∧
     ((scrollToState.vValue ≤ cellTop scrollToState 50 ∧
       cellBottom scrollToState 50 ≤ scrollToState.vValue + scrollToState.vPageSize) →
       (scroll_to scrollToState 50 30).vValue = scrollToState.vValue) ∧
     ((scrollToState.hValue ≤ cellLeft scrollToState 30 ∧
       cellRight scrollToState 30 ≤ scrollToState.hValue + scrollToState.hPageSize) →
       (scroll_to scrollToState 50 30).hValue = scrollToState.hValue) ∧
     (cellTop scrollToState 50 < scrollToState.vValue →
       (scroll_to scrollToState 50 30).vValue = cellTop scrollToState 50) ∧
     ((scrollToState.vValue ≤ cellTop scrollToState 50 ∧
       scrollToState.vValue + scrollToState.vPageSize < cellBottom scrollToState 50) →
       (scroll_to scrollToState 50 30).vValue =
         cellBottom scrollToState 50 - scrollToState.vPageSize) ∧
     (cellLeft scrollToState 30 < scrollToState.hValue →
       (scroll_to scrollToState 50 30).hValue = cellLeft scrollToState 30) ∧
     ((scrollToState.hValue ≤ cellLeft scrollToState 30 ∧
       scrollToState.hValue + scrollToState.hPageSize < cellRight scrollToState 30) →
       (scroll_to scrollToState 50 30).hValue =
         cellRight scrollToState 30 - scrollToState.hPageSize)) :=
  ⟨by norm_num [scrollToState, baseState], by norm_num [scrollToState, baseState],
   by norm_num [scrollToState, baseState], by norm_num [scrollToState, baseState],
   c8_scroll_to_spec scrollToState 50 30
     (by norm_num [scrollToState, baseState]) (by norm_num [scrollToState, baseState])
     (by norm_num [scrollToState, baseState]) (by norm_num [scrollToState, baseState])⟩

/-- C10: the update handler leaves the pristine flag and tab label alone
    when the notification has no `pristine` field or the field matches the
    stored flag; when the field differs it stores the new flag and
    recomputes the label as the file base name (or `Untitled`) prefixed
    with `*` exactly when not pristine. -/
theorem c10_pristine_label (st : EditViewState) (script : List UpdateOp) (p : Bool) :
    (((updateHandler st script none).1).pristine = st.pristine ∧
     ((updateHandler st script none).1).label = st.label) ∧
    (p = st.pristine →
      ((updateHandler st script (some p)).1).pristine = st.pristine ∧
      ((updateHandler st script (some p)).1).label = st.label) ∧
    (p ≠ st.pristine →
      ((updateHandler st script (some p)).1).pristine = p ∧
      ((updateHandler st script (some p)).1).label =
        (if p then "" else "*") ++ baseTitle st.fileName) := by
  unfold updateHandler updatePristineField
  dsimp only
  rw [updateScrollbars_pristine, updateScrollbars_fileName, updateScrollbars_label]
  refine ⟨⟨rfl, rfl⟩, ?_, ?_⟩
  · intro hp
    rw [if_neg (by simp [hp])]
    exact ⟨rfl, rfl⟩
  · intro hp
    rw [if_pos (Ne.symm hp)]
    exact ⟨rfl, rfl⟩

/-- Witness for C10: an update carrying `pristine = false` on a pristine
    view named `dir/file.rs` stores the flag and relabels to `*file.rs`. -/
theorem c10_pristine_label_witness :
    (false ≠ pristineState.pristine) ∧
    ((updateHandler pristineState [] (some false)).1).pristine = false ∧
    ((updateHandler pristineState [] (some false)).1).label =
      (if false then "" else "*") ++ baseTitle pristineState.fileName := by
  have h := (c10_pristine_label pristineState [] false).2.2 (by decide)
  exact ⟨by decide, h.1, h.2⟩
